import Mathlib

/-!
Verification of `mlflow/utils/autologging_utils.py`.

This file shallowly embeds the components of the autologging utilities module
and proves the frozen claims about them:

* `BatchMetricsLogger` (`record_metrics`, `flush`, `_timed_log_batch`,
  `_should_flush`) and the `batch_metrics_logger` context manager;
* the safe patching engine (`safe_patch_function` / `call_original`);
* `with_managed_run` (both the class-based and the plain-function form);
* the argument validator `_validate_args`;
* the integration-configuration store (`AUTOLOGGING_INTEGRATIONS`,
  `get_autologging_config`, `autologging_is_disabled`,
  `autologging_integration`).

Wall-clock time (`time.time()`) is modelled with exact rationals supplied by
the caller (a fake clock): each operation that reads the clock takes the
current timestamp, and each timed region takes its measured duration, as an
explicit argument.  Python exceptions are modelled with `Except`.
-/

/-- Modelled from the spec: `MetricPoint` ({key, numeric value, timestamp in
milliseconds, integer step}) stands for `mlflow.entities.Metric`, whose class
definition lives outside this module; the fields are exactly the four
constructor arguments used at `Metric(key, value, int(current_timestamp * 1000), step)`. -/
structure Metric where
  key : String
  value : Rat
  timestamp : Int
  step : Int
deriving DecidableEq, Repr

/-- Python `int()` applied to a nonnegative-or-negative rational: truncation
toward zero, matching CPython float-to-int conversion.  (Lean's `Int` division
`/` is `Int.div`, which also truncates toward zero.) -/
def pyTrunc (q : Rat) : Int := q.num / (q.den : Int)

/-- The slices `[data[i:i+N] for i in range(0, len(data), N)]` of
`_timed_log_batch`, generated from index `i` upward: while `i < len(data)`,
emit `data[i:i+N]` and advance by `N`.  (`N = 0` would raise in Python's
`range`; the model returns `[]` there, and every use has `N = MAX_METRICS_PER_BATCH > 0`.) -/
def slicesFrom (N : Nat) (xs : List α) (i : Nat) : List (List α) :=
  if h : 0 < N ∧ i < xs.length then ((xs.drop i).take N) :: slicesFrom N xs (i + N) else []
termination_by xs.length - i
decreasing_by omega

/-- State of `BatchMetricsLogger` (`__init__`): optional bound run id, the
buffered `data` list, the two cumulative times and the last-seen producer
timestamp.  Run ids are modelled as `Nat`. -/
structure BatchMetricsLogger where
  run_id : Option Nat
  data : List Metric
  total_training_time : Rat
  total_log_batch_time : Rat
  previous_training_timestamp : Option Rat
deriving DecidableEq, Repr

/-- `BatchMetricsLogger.__init__(run_id)`. -/
def BatchMetricsLogger.init (run_id : Option Nat) : BatchMetricsLogger :=
  ⟨run_id, [], 0, 0, none⟩

/-- `BatchMetricsLogger._timed_log_batch`, with `MAX_METRICS_PER_BATCH`
(imported from `mlflow.utils.validation`, outside this module) passed as the
parameter `N` and the measured wall-clock duration `end - start` of the
submission loop supplied by the fake clock as `cost`.  Returns the updated
logger and the list of submitted batches, in submission order.  Transport
failures are swallowed by `try_mlflow_log` (a warning outside test mode) and
do not affect the logger state, so they are not modelled here; run-id
resolution (`mlflow.active_run()` when `run_id is None`) is an external
boundary that only labels the submission. -/
def BatchMetricsLogger._timed_log_batch (N : Nat) (l : BatchMetricsLogger) (cost : Rat) :
    BatchMetricsLogger × List (List Metric) :=
  ({ l with total_log_batch_time := l.total_log_batch_time + cost }, slicesFrom N l.data 0)

/-- `BatchMetricsLogger.flush`: submit the buffered data via
`_timed_log_batch`, then clear the buffer. -/
def BatchMetricsLogger.flush (N : Nat) (l : BatchMetricsLogger) (cost : Rat) :
    BatchMetricsLogger × List (List Metric) :=
  let tl := BatchMetricsLogger._timed_log_batch N l cost
  ({ tl.1 with data := [] }, tl.2)

/-- `BatchMetricsLogger._should_flush`: true when
`total_training_time >= total_log_batch_time * 10` (the hard-coded
training-to-logging time target). -/
def BatchMetricsLogger._should_flush (l : BatchMetricsLogger) : Bool :=
  if l.total_training_time ≥ l.total_log_batch_time * 10 then true else false

/-- Result of one `record_metrics` call: the updated logger, the batches
submitted by a triggered flush (empty when no flush was triggered), and
whether `flush()` was invoked. -/
structure RecordResult where
  logger : BatchMetricsLogger
  flushed : List (List Metric)
  didFlush : Bool
deriving DecidableEq, Repr

/-- `BatchMetricsLogger.record_metrics(metrics, step)`: `now` is the value
read from `time.time()` at entry and `flushCost` the wall-clock duration a
triggered `flush()` would take (fake clock).  Mirrors the source order:
initialize `previous_training_timestamp` on the first call, accumulate the
elapsed training time, default `step` to 0, append one `Metric` per
key/value pair of the metrics dict (insertion order), flush if
`_should_flush()`, and finally set `previous_training_timestamp` to `now`. -/
def BatchMetricsLogger.record_metrics (N : Nat) (l : BatchMetricsLogger)
    (metrics : List (String × Rat)) (step : Option Int) (now : Rat) (flushCost : Rat) :
    RecordResult :=
  let previous := l.previous_training_timestamp.getD now
  let training_time := now - previous
  let l1 := { l with total_training_time := l.total_training_time + training_time }
  let step1 := step.getD 0
  let newPoints := metrics.map (fun kv => Metric.mk kv.1 kv.2 (pyTrunc (now * 1000)) step1)
  let l2 := { l1 with data := l1.data ++ newPoints }
  if l2._should_flush then
    let fr := BatchMetricsLogger.flush N l2 flushCost
    ⟨{ fr.1 with previous_training_timestamp := some now }, fr.2, true⟩
  else
    ⟨{ l2 with previous_training_timestamp := some now }, [], false⟩

/-- One operation of a logging scope: a `record_metrics` call (with its fake
clock readings) or an explicit `flush` call. -/
inductive LogOp where
  | record (metrics : List (String × Rat)) (step : Option Int) (now : Rat) (flushCost : Rat)
  | flushOp (cost : Rat)
deriving Repr

/-- The metric points a `LogOp` appends to the buffer (empty for a flush). -/
def LogOp.points : LogOp → List Metric
  | LogOp.record ms step now _ =>
      ms.map (fun kv => Metric.mk kv.1 kv.2 (pyTrunc (now * 1000)) (step.getD 0))
  | LogOp.flushOp _ => []

/-- Apply one `LogOp` to a logger, returning the updated logger and the
batches it submitted. -/
def applyOp (N : Nat) (l : BatchMetricsLogger) : LogOp → BatchMetricsLogger × List (List Metric)
  | LogOp.record ms step now cost =>
      let r := BatchMetricsLogger.record_metrics N l ms step now cost
      (r.logger, r.flushed)
  | LogOp.flushOp cost => BatchMetricsLogger.flush N l cost

/-- Run a sequence of `record_metrics` / `flush` calls against one logger,
collecting every submitted batch in submission order. -/
def runOps (N : Nat) : List LogOp → BatchMetricsLogger → BatchMetricsLogger × List (List Metric)
  | [], l => (l, [])
  | op :: ops, l =>
      let first := applyOp N l op
      let rest := runOps N ops first.1
      (rest.1, first.2 ++ rest.2)

/-- All metric points appended over a sequence of operations, in order. -/
def recordedPoints (ops : List LogOp) : List Metric := (ops.map LogOp.points).flatten

/-- The `batch_metrics_logger(run_id)` context manager, embedded with
explicit generator semantics: the body runs against the freshly constructed
logger and either completes normally or raises.  The source is
`yield batch_metrics_logger` followed by `batch_metrics_logger.flush()` with
no `try`/`finally`, so under `contextlib.contextmanager` the trailing
`flush()` line runs only when the body completed normally; when the body
raises, the exception is thrown into the generator at the `yield` point and
propagates without reaching the `flush()` line.  The body returns the logger
it finished with, the batches it caused to be submitted, and its outcome;
`finalCost` is the fake-clock duration of the final flush. -/
def batch_metrics_logger_run (N : Nat) (run_id : Option Nat)
    (body : BatchMetricsLogger → (BatchMetricsLogger × List (List Metric)) × Except Nat Unit)
    (finalCost : Rat) : List (List Metric) × Except Nat Unit :=
  let bodyRun := body (BatchMetricsLogger.init run_id)
  match bodyRun.2 with
  | Except.ok _ =>
      (bodyRun.1.2 ++ (BatchMetricsLogger.flush N bodyRun.1.1 finalCost).2, Except.ok ())
  | Except.error e => (bodyRun.1.2, Except.error e)

/-- A patch implementation's interaction with the wrapped original function,
as seen from `safe_patch_function`: the patch code either finishes normally,
raises an exception of its own, or invokes `call_original` on arguments of
its choosing and continues with the returned value — optionally with a
`try`/`except` around the invocation (`callOrigCatch`) that handles an
exception raised by `call_original`.  `A` is the type of argument tuples,
`V` of return values and `E` of exceptions.  Calls without a surrounding
handler propagate the exception out of the patch implementation, ending its
execution, exactly as an unhandled Python exception would. -/
inductive PatchProg (A V E : Type) where
  | ret : PatchProg A V E
  | raiseOwn : E → PatchProg A V E
  | callOrig : A → (V → PatchProg A V E) → PatchProg A V E
  | callOrigCatch : A → (V → PatchProg A V E) → (E → PatchProg A V E) → PatchProg A V E

/-- The three `nonlocal` flags of `safe_patch_function`:
`original_has_been_called`, `original_result` and `failed_during_original`. -/
structure CallState (V : Type) where
  original_has_been_called : Bool
  original_result : Option V
  failed_during_original : Bool
deriving DecidableEq, Repr

/-- Observable instrumentation events of one intercepted call: a test-mode
`_validate_args` run on the arguments about to be forwarded, an invocation of
the saved original function with its outcome, and the start of the patch
implementation's execution. -/
inductive PatchEvent (A V E : Type) where
  | validated : A → PatchEvent A V E
  | origCalled : A → Except E V → PatchEvent A V E
  | patchStarted : PatchEvent A V E

/-- The invocations of the original function recorded in an event list, with
their outcomes, in order. -/
def origTrace {A V E : Type} (evs : List (PatchEvent A V E)) : List (A × Except E V) :=
  evs.filterMap (fun ev => match ev with
    | PatchEvent.origCalled a r => some (a, r)
    | _ => none)

/-- `call_original(*og_args, **og_kwargs)` as defined inside
`safe_patch_function`: in test mode run `_validate_args` against the caller's
arguments (`vl callerArgs ogArgs`, `some e` meaning the validator raised `e`,
which the surrounding `except` clause records as `failed_during_original`
before re-raising); then set `original_has_been_called`, invoke the original,
record its result, and on an exception set `failed_during_original` and
re-raise.  Returns the updated flags, the emitted events and the outcome. -/
def call_original {A V E : Type} (tm : Bool) (vl : A → A → Option E)
    (original : A → Except E V) (callerArgs : A) (st : CallState V) (ogArgs : A) :
    CallState V × List (PatchEvent A V E) × Except E V :=
  let vres : List (PatchEvent A V E) × Option E :=
    if tm then ([PatchEvent.validated ogArgs], vl callerArgs ogArgs) else ([], none)
  match vres.2 with
  | some e => ({ st with failed_during_original := true }, vres.1, Except.error e)
  | none =>
      let st1 := { st with original_has_been_called := true }
      match original ogArgs with
      | Except.ok v =>
          ({ st1 with original_result := some v },
           vres.1 ++ [PatchEvent.origCalled ogArgs (Except.ok v)], Except.ok v)
      | Except.error e =>
          ({ st1 with failed_during_original := true },
           vres.1 ++ [PatchEvent.origCalled ogArgs (Except.error e)], Except.error e)

/-- Run a patch implementation with `call_original` in scope: the `try:`
body of `safe_patch_function` from the definition of `call_original` to the
`patch_function(call_original, *args, **kwargs)` invocation.  An exception
from an unhandled `call_original` invocation or from `raiseOwn` ends the
execution with that exception. -/
def runPatch {A V E : Type} (tm : Bool) (vl : A → A → Option E)
    (original : A → Except E V) (callerArgs : A) :
    PatchProg A V E → CallState V → CallState V × List (PatchEvent A V E) × Except E Unit
  | PatchProg.ret, st => (st, [], Except.ok ())
  | PatchProg.raiseOwn e, st => (st, [], Except.error e)
  | PatchProg.callOrig a k, st =>
      match call_original tm vl original callerArgs st a with
      | (st1, evs, Except.ok v) =>
          let (st2, evs2, r) := runPatch tm vl original callerArgs (k v) st1
          (st2, evs ++ evs2, r)
      | (st1, evs, Except.error e) => (st1, evs, Except.error e)
  | PatchProg.callOrigCatch a k h, st =>
      match call_original tm vl original callerArgs st a with
      | (st1, evs, Except.ok v) =>
          let (st2, evs2, r) := runPatch tm vl original callerArgs (k v) st1
          (st2, evs ++ evs2, r)
      | (st1, evs, Except.error e) =>
          let (st2, evs2, r) := runPatch tm vl original callerArgs (h e) st1
          (st2, evs ++ evs2, r)

/-- `safe_patch_function(*args, **kwargs)`: if the owning integration is
disabled, invoke the saved original directly and return.  Otherwise run the
patch implementation with `call_original` in scope; on an exception from the
`try:` body, re-raise when `failed_during_original` or in test mode, else
swallow it with a warning; finally return `original_result` when the
original has been called, else invoke the original directly with the
caller's arguments.  `disabled` stands for the
`autologging_is_disabled(autologging_integration)` lookup (a read of the
process-wide `AUTOLOGGING_INTEGRATIONS` store, modelled separately below)
and `tm` for `_is_testing()`.  The returned value is `Option V` because a
patched call can return Python `None` (an `original_result` never assigned).
The second component lists the observable instrumentation events. -/
def safe_patch_function {A V E : Type} (disabled tm : Bool) (vl : A → A → Option E)
    (original : A → Except E V) (patch : PatchProg A V E) (args : A) :
    Except E (Option V) × List (PatchEvent A V E) :=
  if disabled then
    ((original args).map some, [PatchEvent.origCalled args (original args)])
  else
    let run := runPatch tm vl original args patch ⟨false, none, false⟩
    let st := run.1
    let evs := PatchEvent.patchStarted :: run.2.1
    match run.2.2 with
    | Except.ok _ =>
        if st.original_has_been_called then (Except.ok st.original_result, evs)
        else ((original args).map some, evs ++ [PatchEvent.origCalled args (original args)])
    | Except.error e =>
        if st.failed_during_original || tm then (Except.error e, evs)
        else
          if st.original_has_been_called then (Except.ok st.original_result, evs)
          else ((original args).map some, evs ++ [PatchEvent.origCalled args (original args)])

/-- A patch implementation that never wraps a `call_original` invocation in
its own exception handler: every exception raised by `call_original`
propagates out of the patch implementation unchanged. -/
def NoCatch {A V E : Type} : PatchProg A V E → Prop
  | PatchProg.ret => True
  | PatchProg.raiseOwn _ => True
  | PatchProg.callOrig _ k => ∀ v, NoCatch (k v)
  | PatchProg.callOrigCatch _ _ _ => False

/-- A patch implementation that never invokes `call_original` (it finishes
normally or raises before ever reaching the original). -/
def NeverCallsOriginal {A V E : Type} : PatchProg A V E → Prop
  | PatchProg.ret => True
  | PatchProg.raiseOwn _ => True
  | PatchProg.callOrig _ _ => False
  | PatchProg.callOrigCatch _ _ _ => False

/-- Modelled from the spec: the run-status values this module passes to
`mlflow.end_run` — `RunStatus.FINISHED` (success) and `RunStatus.FAILED` —
whose enumeration class `mlflow.entities.run_status.RunStatus` lives outside
this module. -/
inductive RunStatus where
  | FINISHED
  | FAILED
deriving DecidableEq, Repr

/-- Observable run-lifecycle boundary events of `with_managed_run`:
`mlflow.start_run()`, the execution of the inner patch implementation, and
`mlflow.end_run(status)`.  `start_run` / `end_run` are external collaborators
(invoked through `try_mlflow_log`); the model assumes they succeed. -/
inductive RunEvent where
  | startRun
  | innerRan
  | endRun (status : RunStatus)
deriving DecidableEq, Repr

/-- The plain-function form `patch_with_managed_run` produced by
`with_managed_run`: `active_run` is whether `mlflow.active_run()` reported an
active run at entry, and `inner` the outcome of
`patch_function(original, *args, **kwargs)`.  If no run is active, start one
and remember owning it (`managed_run`); run the inner patch code; on success
end an owned run as FINISHED and return the result, on an exception end an
owned run as FAILED and re-raise. -/
def patch_with_managed_run {V E : Type} (active_run : Bool) (inner : Except E V) :
    List RunEvent × Except E V :=
  let startPart : List RunEvent × Bool :=
    if active_run then ([], false) else ([RunEvent.startRun], true)
  match inner with
  | Except.ok v =>
      (startPart.1 ++ [RunEvent.innerRan] ++
        (if startPart.2 then [RunEvent.endRun RunStatus.FINISHED] else []), Except.ok v)
  | Except.error e =>
      (startPart.1 ++ [RunEvent.innerRan] ++
        (if startPart.2 then [RunEvent.endRun RunStatus.FAILED] else []), Except.error e)

/-- `PatchWithManagedRun._patch_implementation` (the class-based form): start
a run when none is active, remember it in `self.managed_run`, delegate to the
superclass implementation, and after a successful return end an owned run as
FINISHED.  Returns the events, the outcome and the final `managed_run` flag.
When the inner code raises, the exception escapes before the FINISHED call. -/
def PatchWithManagedRun_patch_implementation {V E : Type} (active_run : Bool)
    (inner : Except E V) : (List RunEvent × Except E V) × Bool :=
  let startPart : List RunEvent × Bool :=
    if active_run then ([], false) else ([RunEvent.startRun], true)
  match inner with
  | Except.ok v =>
      ((startPart.1 ++ [RunEvent.innerRan] ++
         (if startPart.2 then [RunEvent.endRun RunStatus.FINISHED] else []), Except.ok v),
       startPart.2)
  | Except.error e =>
      ((startPart.1 ++ [RunEvent.innerRan], Except.error e), startPart.2)

/-- `PatchWithManagedRun._on_exception`: end an owned run as FAILED (then
delegate to the superclass callback, which contributes no further
run-lifecycle events). -/
def PatchWithManagedRun_on_exception (managed_run : Bool) : List RunEvent :=
  if managed_run then [RunEvent.endRun RunStatus.FAILED] else []

/-- `PatchFunction.__call__`: run `_patch_implementation`; on an exception
run `_on_exception` and then re-raise the original exception regardless. -/
def PatchFunction_call {V E : Type} (impl : List RunEvent × Except E V)
    (onExc : List RunEvent) : List RunEvent × Except E V :=
  match impl with
  | (evs, Except.ok v) => (evs, Except.ok v)
  | (evs, Except.error e) => (evs ++ onExc, Except.error e)

/-- The class-based form of `with_managed_run`: `PatchWithManagedRun`
invoked through `PatchFunction.__call__`. -/
def PatchWithManagedRun_call {V E : Type} (active_run : Bool) (inner : Except E V) :
    List RunEvent × Except E V :=
  let impl := PatchWithManagedRun_patch_implementation active_run inner
  PatchFunction_call impl.1 (PatchWithManagedRun_on_exception impl.2)

/-- Python values stored in an integration's configuration mapping (only
scalar option values are needed by the claims). -/
inductive PyVal where
  | none
  | bool (b : Bool)
  | int (n : Int)
  | str (s : String)
deriving DecidableEq, Repr

/-- One integration's configuration: a Python dict from option name to
value, modelled as an association list with distinct keys, first match wins. -/
abbrev AutologgingConfig := List (String × PyVal)

/-- The process-wide `AUTOLOGGING_INTEGRATIONS` dict mapping integration
name to its config. -/
abbrev AutologgingStore := List (String × AutologgingConfig)

/-- `get_autologging_config(flavor_name, config_key, default_value)`:
`AUTOLOGGING_INTEGRATIONS.get(flavor_name)`, then `config.get(config_key,
default_value)`; the default is returned when the flavor has no recorded
config at all. -/
def get_autologging_config (store : AutologgingStore) (flavor_name config_key : String)
    (default_value : PyVal) : PyVal :=
  match store.lookup flavor_name with
  | some config => (config.lookup config_key).getD default_value
  | none => default_value

/-- `autologging_is_disabled(flavor_name)`:
`get_autologging_config(flavor_name, "disable", True)`. -/
def autologging_is_disabled (store : AutologgingStore) (flavor_name : String) : PyVal :=
  get_autologging_config store flavor_name "disable" (PyVal.bool true)

/-- The default value of a Python function parameter: either
`inspect.Parameter.empty` (no default) or a concrete value. -/
inductive PyDefault where
  | empty
  | val (v : PyVal)
deriving DecidableEq, Repr

/-- One entry of `inspect.signature(fn).parameters`: the parameter's name
and default value. -/
structure PyParam where
  name : String
  default : PyDefault
deriving DecidableEq, Repr

/-- `validate_param_spec` inside `autologging_integration`, as a boolean:
`false` means the decorator raises (`"disable" not in param_spec or
param_spec["disable"].default is not False`), `true` means it passes.  The
Python `is not False` identity test distinguishes `False` from values merely
equal to it, matching constructor equality on `PyDefault.val (PyVal.bool
false)`. -/
def validate_param_spec (param_spec : List PyParam) : Bool :=
  match param_spec.find? (fun p => p.name = "disable") with
  | some p => decide (p.default = PyDefault.val (PyVal.bool false))
  | none => false

/-- The decoration-time effect of `autologging_integration(name)` applied to
an autolog function with parameter list `param_spec`: validate the parameter
spec (raising on failure, before anything is registered), then set
`AUTOLOGGING_INTEGRATIONS[name] = {}`.  The wrapped autolog function itself
is not invoked at decoration time, so its behavior does not appear here;
the dict assignment is modelled by prepending (shadowing any old entry). -/
def autologging_integration_wrapper (name : String) (param_spec : List PyParam)
    (store : AutologgingStore) : Except Unit AutologgingStore :=
  if validate_param_spec param_spec then Except.ok ((name, []) :: store)
  else Except.error ()

/-- Python objects as seen by `_validate_args`: scalars, containers, and
the two kinds of values the exception-safety check recognizes — callables
(`func`, whose boolean records the `_ATTRIBUTE_EXCEPTION_SAFE` attribute set
by `exception_safe_function` in test mode) and class instances (`inst`,
whose boolean records whether `type(obj.__class__) == ExceptionSafeClass`).
`func` and `inst` carry an identity (`id`), since Python compares them by
identity; `inst` also carries its class identity (`classId`) for `type()`
comparison.  Dict keys are strings, matching keyword-argument mappings. -/
inductive PyObj where
  | none
  | bool (b : Bool)
  | int (n : Int)
  | str (s : String)
  | tuple (xs : List PyObj)
  | list (xs : List PyObj)
  | dict (kvs : List (String × PyObj))
  | func (id : Nat) (exception_safe : Bool)
  | inst (id : Nat) (classId : Nat) (exception_safe_class : Bool)

/-- Whether a value is Python `None`. -/
def isNone : PyObj → Bool
  | PyObj.none => true
  | _ => false

/-- A tag standing for `type(x)`: two values have equal tags exactly when
their Python types are equal.  All functions share the type `function`;
an instance's type is its class. -/
def pyTypeTag : PyObj → Nat
  | PyObj.none => 0
  | PyObj.bool _ => 1
  | PyObj.int _ => 2
  | PyObj.str _ => 3
  | PyObj.tuple _ => 4
  | PyObj.list _ => 5
  | PyObj.dict _ => 6
  | PyObj.func _ _ => 7
  | PyObj.inst _ classId _ => 8 + classId

mutual
/-- Python `a is u or a == u` for the values reaching `_validate`'s fallback
branch: value equality on scalars, identity on functions and instances,
elementwise on containers.  (Dicts are modelled as canonically ordered
association lists, so ordered comparison coincides with Python's
order-insensitive dict equality; containers never actually reach this
fallback because `_validate` handles them in earlier branches.) -/
def pyEq : PyObj → PyObj → Bool
  | PyObj.none, PyObj.none => true
  | PyObj.bool a, PyObj.bool b => a == b
  | PyObj.int a, PyObj.int b => a == b
  | PyObj.str a, PyObj.str b => a == b
  | PyObj.tuple xs, PyObj.tuple ys => pyEqList xs ys
  | PyObj.list xs, PyObj.list ys => pyEqList xs ys
  | PyObj.dict xs, PyObj.dict ys => pyEqKV xs ys
  | PyObj.func i _, PyObj.func j _ => i == j
  | PyObj.inst i _ _, PyObj.inst j _ _ => i == j
  | _, _ => false

/-- Elementwise equality of Python sequences. -/
def pyEqList : List PyObj → List PyObj → Bool
  | [], [] => true
  | x :: xs, y :: ys => pyEq x y && pyEqList xs ys
  | _, _ => false

/-- Entrywise equality of Python dicts in canonical order. -/
def pyEqKV : List (String × PyObj) → List (String × PyObj) → Bool
  | [], [] => true
  | (k1, v1) :: xs, (k2, v2) :: ys => k1 == k2 && pyEq v1 v2 && pyEqKV xs ys
  | _, _ => false
end

mutual
/-- `_validate_new_input(inp)`: a new input introduced by autologging is
valid if it is a list each of whose elements is valid, a callable carrying
the exception-safety attribute, or an instance of a class with the
`ExceptionSafeClass` metaclass; anything else fails the assertion. -/
def _validate_new_input : PyObj → Bool
  | PyObj.list xs => _validate_new_input_list xs
  | PyObj.func _ safe => safe
  | PyObj.inst _ _ safeCls => safeCls
  | _ => false

/-- The `for item in inp` loop of `_validate_new_input` over a list. -/
def _validate_new_input_list : List PyObj → Bool
  | [] => true
  | x :: xs => _validate_new_input x && _validate_new_input_list xs
end

/-- `set(user_call_input.keys()).issubset(set(autologging_call_input.keys()))`. -/
def dict_keys_subset (ukv akv : List (String × PyObj)) : Bool :=
  ukv.all (fun kv => (akv.lookup kv.1).isSome)

mutual
/-- `_validate(autologging_call_input, user_call_input)`, as a boolean
(`false` means some assertion failed).  A `None` user input with a
non-`None` autologging input is a new input and goes through
`_validate_new_input`; otherwise the types must match; tuples and lists are
compared with `itertools.zip_longest` after asserting the autologging side
is at least as long; dicts require the user keys to be a subset of the
autologging keys and recurse on every autologging key with
`user_call_input.get(key, None)`; everything else falls back to
`a is u or a == u`. -/
def _validate : PyObj → PyObj → Bool
  | a, u =>
    if isNone u && !(isNone a) then _validate_new_input a
    else if !(pyTypeTag a == pyTypeTag u) then false
    else
      match a, u with
      | PyObj.tuple az, PyObj.tuple uz =>
          decide (uz.length ≤ az.length) && _validate_zip az uz
      | PyObj.list az, PyObj.list uz =>
          decide (uz.length ≤ az.length) && _validate_zip az uz
      | PyObj.dict akv, PyObj.dict ukv =>
          dict_keys_subset ukv akv && _validate_dict akv ukv
      | a, u => pyEq a u

/-- The `zip_longest` loop of `_validate` over sequence elements: pair each
autologging-side element with the user-side element at the same position,
padding the user side with `None` (so trailing autologging elements are
validated as new inputs).  Excess user-side elements can only exist when the
preceding length assertion already failed, making the whole conjunction
false, so they need not be visited. -/
def _validate_zip : List PyObj → List PyObj → Bool
  | [], _ => true
  | a :: az, us => _validate a (us.headD PyObj.none) && _validate_zip az us.tail

/-- The `for key in autologging_call_input.keys()` loop of `_validate` over
dict entries. -/
def _validate_dict : List (String × PyObj) → List (String × PyObj) → Bool
  | [], _ => true
  | (k, v) :: rest, ukv =>
      _validate v ((ukv.lookup k).getD PyObj.none) && _validate_dict rest ukv
end

/-- `_validate_args(user_call_args, user_call_kwargs, autologging_call_args,
autologging_call_kwargs)`: validate the positional tuples and the keyword
dicts independently; `true` means validation passed, `false` that an
assertion raised. -/
def _validate_args (user_call_args : List PyObj) (user_call_kwargs : List (String × PyObj))
    (autologging_call_args : List PyObj)
    (autologging_call_kwargs : List (String × PyObj)) : Bool :=
  _validate (PyObj.tuple autologging_call_args) (PyObj.tuple user_call_args) &&
  _validate (PyObj.dict autologging_call_kwargs) (PyObj.dict user_call_kwargs)

/-- Lemma: the slices starting at index `i` concatenate back to `data[i:]`. -/
theorem slicesFrom_join (N : Nat) (hN : 0 < N) (xs : List α) (i : Nat) :
    (slicesFrom N xs i).flatten = xs.drop i := by
  rw [slicesFrom]
  split
  · rename_i h
    have ih := slicesFrom_join N hN xs (i + N)
    have hdd : List.drop (i + N) xs = List.drop N (List.drop i xs) := by
      rw [List.drop_drop, Nat.add_comm]
    rw [List.flatten_cons, ih, hdd]
    exact List.take_append_drop N (xs.drop i)
  · rename_i h
    have hi : xs.length ≤ i := by omega
    rw [List.flatten_nil, List.drop_eq_nil_of_le hi]
termination_by xs.length - i
decreasing_by omega

/-- Lemma: every slice is nonempty and no longer than `N`. -/
theorem slicesFrom_wf (N : Nat) (xs : List α) (i : Nat) :
    ∀ b ∈ slicesFrom N xs i, b ≠ [] ∧ b.length ≤ N := by
  rw [slicesFrom]
  split
  · rename_i h
    intro b hb
    rcases hb with _ | hb
    · constructor
      · have hlen : ((xs.drop i).take N).length = min N (xs.drop i).length := List.length_take ..
        intro hcontra
        rw [hcontra] at hlen
        simp only [List.length_nil] at hlen
        have : 0 < (xs.drop i).length := by
          rw [List.length_drop]; omega
        omega
      · calc ((xs.drop i).take N).length = min N (xs.drop i).length := List.length_take ..
          _ ≤ N := Nat.min_le_left ..
    · exact slicesFrom_wf N xs (i + N) b (by assumption)
  · intro b hb
    simp at hb
termination_by xs.length - i
decreasing_by omega

/-- Lemma: `flush` submits the slices of the buffer and clears it, leaving
the cumulative times' relationship to the submitted batches explicit. -/
theorem flush_spec (N : Nat) (l : BatchMetricsLogger) (c : Rat) :
    (BatchMetricsLogger.flush N l c).2 = slicesFrom N l.data 0 ∧
    (BatchMetricsLogger.flush N l c).1.data = [] := by
  constructor <;> rfl

/-- Lemma: one operation preserves the stream of recorded points — the
points flushed so far plus the points still buffered equal the old buffer
plus the points the operation appended — and every batch it submits is a
nonempty chunk of at most `N` points. -/
theorem applyOp_inv (N : Nat) (hN : 0 < N) (l : BatchMetricsLogger) (op : LogOp) :
    ((applyOp N l op).2).flatten ++ (applyOp N l op).1.data = l.data ++ op.points ∧
    (∀ b ∈ (applyOp N l op).2, b ≠ [] ∧ b.length ≤ N) := by
  cases op with
  | record ms step now cost =>
      simp only [applyOp, BatchMetricsLogger.record_metrics, LogOp.points]
      split
      · constructor
        · simp only [BatchMetricsLogger.flush, BatchMetricsLogger._timed_log_batch]
          rw [slicesFrom_join N hN]
          simp
        · intro b hb
          exact slicesFrom_wf N _ 0 b hb
      · simp
  | flushOp cost =>
      constructor
      · simp only [applyOp, BatchMetricsLogger.flush, BatchMetricsLogger._timed_log_batch,
          LogOp.points]
        rw [slicesFrom_join N hN]
        simp
      · intro b hb
        exact slicesFrom_wf N _ 0 b hb

/-- Lemma: over a whole operation sequence, flushed batches plus the final
buffer equal the initial buffer plus all recorded points, and every batch is
a nonempty chunk of at most `N` points. -/
theorem runOps_inv (N : Nat) (hN : 0 < N) (ops : List LogOp) (l : BatchMetricsLogger) :
    ((runOps N ops l).2).flatten ++ (runOps N ops l).1.data = l.data ++ recordedPoints ops ∧
    (∀ b ∈ (runOps N ops l).2, b ≠ [] ∧ b.length ≤ N) := by
  induction ops generalizing l with
  | nil => simp [runOps, recordedPoints]
  | cons op ops ih =>
      obtain ⟨ha, hwa⟩ := applyOp_inv N hN l op
      obtain ⟨hr, hwr⟩ := ih (applyOp N l op).1
      constructor
      · simp only [runOps, recordedPoints, List.map_cons, List.flatten_cons,
          List.flatten_append]
        rw [List.append_assoc, hr]
        rw [← List.append_assoc, ha]
        simp [recordedPoints, List.append_assoc]
      · intro b hb
        simp only [runOps, List.mem_append] at hb
        rcases hb with hb | hb
        · exact hwa b hb
        · exact hwr b hb

/-- Lemma: running a concatenation of operation sequences composes. -/
theorem runOps_append (N : Nat) (xs ys : List LogOp) (l : BatchMetricsLogger) :
    runOps N (xs ++ ys) l =
      ((runOps N ys (runOps N xs l).1).1,
       (runOps N xs l).2 ++ (runOps N ys (runOps N xs l).1).2) := by
  induction xs generalizing l with
  | nil => simp [runOps]
  | cons op xs ih => simp [runOps, ih]

/-- C5: for any interleaving of `record_metrics` and `flush` calls on one
`BatchMetricsLogger` that ends with a final explicit flush, the submitted
batches concatenate to exactly the sequence of metric points recorded, in
recording order — so every point is submitted in exactly one batch, with no
duplication or loss — and the batches are nonempty contiguous chunks of at
most the fixed maximum batch size, submitted in order. -/
theorem batch_logger_round_trip (N : Nat) (hN : 0 < N) (run_id : Option Nat)
    (ops : List LogOp) (finalCost : Rat) :
    ((runOps N (ops ++ [LogOp.flushOp finalCost]) (BatchMetricsLogger.init run_id)).2).flatten
        = recordedPoints ops ∧
    (∀ b ∈ (runOps N (ops ++ [LogOp.flushOp finalCost]) (BatchMetricsLogger.init run_id)).2,
      b ≠ [] ∧ b.length ≤ N) := by
  obtain ⟨hinv, hwf⟩ :=
    runOps_inv N hN (ops ++ [LogOp.flushOp finalCost]) (BatchMetricsLogger.init run_id)
  constructor
  · have hdata :
        (runOps N (ops ++ [LogOp.flushOp finalCost]) (BatchMetricsLogger.init run_id)).1.data
          = [] := by
      rw [runOps_append]
      simp [runOps, applyOp, BatchMetricsLogger.flush, BatchMetricsLogger._timed_log_batch]
    rw [hdata, List.append_nil] at hinv
    rw [hinv]
    simp [BatchMetricsLogger.init, recordedPoints, LogOp.points]
  · exact hwf

/-- C5 witness: the round-trip theorem applied at batch limit 2 and a
concrete three-point recording followed by an explicit flush. -/
theorem batch_logger_round_trip_witness :
    0 < 2 ∧
    (((runOps 2 ([LogOp.record [("a", 1), ("b", 2), ("c", 3)] Option.none 0 1] ++
          [LogOp.flushOp 1]) (BatchMetricsLogger.init Option.none)).2).flatten
        = recordedPoints [LogOp.record [("a", 1), ("b", 2), ("c", 3)] Option.none 0 1] ∧
     (∀ b ∈ (runOps 2 ([LogOp.record [("a", 1), ("b", 2), ("c", 3)] Option.none 0 1] ++
          [LogOp.flushOp 1]) (BatchMetricsLogger.init Option.none)).2,
       b ≠ [] ∧ b.length ≤ 2)) :=
  ⟨by norm_num,
   batch_logger_round_trip 2 (by norm_num) Option.none
     [LogOp.record [("a", 1), ("b", 2), ("c", 3)] Option.none 0 1] 1⟩

/-- C3 (amended): a `record_metrics` call flushes exactly when, after adding
the elapsed producer time, cumulative producer time is at least ten times
cumulative flush time; consequently the logger always flushes during the
first record call, where both cumulative totals are zero. -/
theorem record_metrics_flush_condition :
    (∀ (N : Nat) (l : BatchMetricsLogger) (ms : List (String × Rat)) (step : Option Int)
        (now flushCost : Rat),
      (BatchMetricsLogger.record_metrics N l ms step now flushCost).didFlush = true ↔
        l.total_training_time + (now - l.previous_training_timestamp.getD now) ≥
          l.total_log_batch_time * 10) ∧
    (∀ (N : Nat) (run_id : Option Nat) (ms : List (String × Rat)) (step : Option Int)
        (now flushCost : Rat),
      (BatchMetricsLogger.record_metrics N (BatchMetricsLogger.init run_id) ms step now
          flushCost).didFlush = true) := by
  have hmain : ∀ (N : Nat) (l : BatchMetricsLogger) (ms : List (String × Rat))
      (step : Option Int) (now flushCost : Rat),
      (BatchMetricsLogger.record_metrics N l ms step now flushCost).didFlush = true ↔
        l.total_training_time + (now - l.previous_training_timestamp.getD now) ≥
          l.total_log_batch_time * 10 := by
    intro N l ms step now flushCost
    simp only [BatchMetricsLogger.record_metrics, BatchMetricsLogger._should_flush]
    split
    · rename_i hcond
      simp only [ge_iff_le, decide_eq_true_eq] at hcond ⊢
      simpa using hcond
    · rename_i hcond
      simp only [ge_iff_le, decide_eq_true_eq] at hcond ⊢
      simpa using hcond
  constructor
  · exact hmain
  · intro N run_id ms step now flushCost
    rw [hmain]
    simp [BatchMetricsLogger.init]

/-- C3 (counterexample): on the very first `record_metrics` call the logger
does flush — cumulative producer time (zero) is already at least ten times
cumulative flush time (zero) — submitting the just-recorded point, so the
claim that it never flushes during the first record call is false. -/
theorem first_record_call_flushes :
    (BatchMetricsLogger.record_metrics 1000 (BatchMetricsLogger.init Option.none)
        [("loss", 1)] Option.none 5 1).didFlush = true ∧
    (BatchMetricsLogger.record_metrics 1000 (BatchMetricsLogger.init Option.none)
        [("loss", 1)] Option.none 5 1).flushed = [[Metric.mk "loss" 1 5000 0]] := by
  constructor
  · simp [BatchMetricsLogger.record_metrics, BatchMetricsLogger.init,
      BatchMetricsLogger._should_flush]
  · simp only [BatchMetricsLogger.record_metrics, BatchMetricsLogger.init,
      BatchMetricsLogger._should_flush, BatchMetricsLogger.flush,
      BatchMetricsLogger._timed_log_batch]
    norm_num [pyTrunc]
    rw [slicesFrom]
    norm_num
    rw [slicesFrom]
    norm_num

/-- C4: concrete run of the `batch_metrics_logger` scope in which the body
records a point that stays buffered and then raises — the scope's trailing
`flush()` is never reached, so the buffered point `("b", 2)` is lost: only
the batch flushed during recording is ever submitted, and the logger the
body finished with still holds the unsubmitted point. -/
theorem batch_scope_skips_final_flush_on_exception :
    batch_metrics_logger_run 1000 (some 0)
        (fun l0 =>
          let r1 := BatchMetricsLogger.record_metrics 1000 l0 [("a", 1)] Option.none 0 1
          let r2 := BatchMetricsLogger.record_metrics 1000 r1.logger [("b", 2)] Option.none 1 1
          ((r2.logger, r1.flushed ++ r2.flushed), Except.error 42)) 1 =
      ([[Metric.mk "a" 1 0 0]], Except.error 42) ∧
    (BatchMetricsLogger.record_metrics 1000
        (BatchMetricsLogger.record_metrics 1000 (BatchMetricsLogger.init (some 0))
            [("a", 1)] Option.none 0 1).logger [("b", 2)] Option.none 1 1).logger.data =
      [Metric.mk "b" 2 1000 0] := by
  have hr1 : BatchMetricsLogger.record_metrics 1000 (BatchMetricsLogger.init (some 0))
      [("a", 1)] Option.none 0 1 =
      ⟨⟨some 0, [], 0, 1, some 0⟩, [[Metric.mk "a" 1 0 0]], true⟩ := by
    simp only [BatchMetricsLogger.record_metrics, BatchMetricsLogger.init,
      BatchMetricsLogger._should_flush, BatchMetricsLogger.flush,
      BatchMetricsLogger._timed_log_batch]
    norm_num [pyTrunc]
    rw [slicesFrom]
    norm_num
    rw [slicesFrom]
    norm_num
  have hr2 : BatchMetricsLogger.record_metrics 1000
      (⟨some 0, [], 0, 1, some 0⟩ : BatchMetricsLogger) [("b", 2)] Option.none 1 1 =
      ⟨⟨some 0, [Metric.mk "b" 2 1000 0], 1, 1, some 1⟩, [], false⟩ := by
    simp only [BatchMetricsLogger.record_metrics, BatchMetricsLogger._should_flush]
    norm_num [pyTrunc]
  constructor
  · simp only [batch_metrics_logger_run, hr1, hr2]
    norm_num
  · rw [hr1, hr2]

/-- C6: the four concrete validator scenarios — an extra exception-safe
function argument passes; the same extra argument without the marker fails;
an actual positional sequence shorter than the expected one fails; an
expected keyword key absent from the actual keyword mapping fails. -/
theorem validator_cases :
    _validate_args [PyObj.int 1, PyObj.int 2] []
        [PyObj.int 1, PyObj.int 2, PyObj.func 0 true] [] = true ∧
    _validate_args [PyObj.int 1, PyObj.int 2] []
        [PyObj.int 1, PyObj.int 2, PyObj.func 0 false] [] = false ∧
    _validate_args [PyObj.int 1, PyObj.int 2] [] [PyObj.int 1] [] = false ∧
    _validate_args [] [("a", PyObj.int 1)] [] [] = false := by
  refine ⟨?_, ?_, ?_, ?_⟩ <;>
    simp [_validate_args, _validate, _validate_zip, _validate_dict, _validate_new_input,
      pyEq, pyTypeTag, isNone, dict_keys_subset]

/-- C7: for both forms produced by `with_managed_run` — the plain-function
form and the class-based form — when no run is active at entry a run is
started before the inner patch code runs and ended with FINISHED after a
successful inner call or FAILED (with the exception re-raised) after a
raising inner call; when a run is already active at entry no start or end
call is made regardless of the inner outcome. -/
theorem with_managed_run_behavior {V E : Type} (active_run : Bool) (inner : Except E V) :
    patch_with_managed_run active_run inner =
      ((if active_run then [] else [RunEvent.startRun]) ++ [RunEvent.innerRan] ++
        (if active_run then []
         else [RunEvent.endRun
            (match inner with
             | Except.ok _ => RunStatus.FINISHED
             | Except.error _ => RunStatus.FAILED)]),
       inner) ∧
    PatchWithManagedRun_call active_run inner =
      ((if active_run then [] else [RunEvent.startRun]) ++ [RunEvent.innerRan] ++
        (if active_run then []
         else [RunEvent.endRun
            (match inner with
             | Except.ok _ => RunStatus.FINISHED
             | Except.error _ => RunStatus.FAILED)]),
       inner) := by
  cases active_run <;> cases inner <;>
    simp [patch_with_managed_run, PatchWithManagedRun_call,
      PatchWithManagedRun_patch_implementation, PatchWithManagedRun_on_exception,
      PatchFunction_call]

/-- C8: when the owning integration is disabled, the patched function
invokes the saved original implementation exactly once with the caller's
arguments and returns its result, and the only observable event is that
single original invocation — the patch implementation never starts, no
validator runs, and no call-outcome flags are ever constructed. -/
theorem disabled_integration_bypasses_instrumentation {A V E : Type} (tm : Bool)
    (vl : A → A → Option E) (original : A → Except E V) (patch : PatchProg A V E)
    (args : A) :
    safe_patch_function true tm vl original patch args =
      ((original args).map some, [PatchEvent.origCalled args (original args)]) := by
  rfl

/-- C9: `autologging_is_disabled` returns `True` when the integration was
never registered, and when it is registered but its config has no
`"disable"` entry; otherwise it returns the stored value of the `"disable"`
option. -/
theorem autologging_is_disabled_spec (store : AutologgingStore) (flavor_name : String) :
    (store.lookup flavor_name = Option.none →
      autologging_is_disabled store flavor_name = PyVal.bool true) ∧
    (∀ config, store.lookup flavor_name = some config →
      config.lookup "disable" = Option.none →
      autologging_is_disabled store flavor_name = PyVal.bool true) ∧
    (∀ config v, store.lookup flavor_name = some config →
      config.lookup "disable" = some v →
      autologging_is_disabled store flavor_name = v) := by
  refine ⟨?_, ?_, ?_⟩
  · intro h
    simp [autologging_is_disabled, get_autologging_config, h]
  · intro config h1 h2
    simp [autologging_is_disabled, get_autologging_config, h1, h2]
  · intro config v h1 h2
    simp [autologging_is_disabled, get_autologging_config, h1, h2]

/-- C9 witness: the three cases at concrete stores — an unregistered
integration, a registered integration without a `"disable"` entry, and a
registered integration whose `"disable"` option is `False`. -/
theorem autologging_is_disabled_spec_witness :
    autologging_is_disabled [] "sklearn" = PyVal.bool true ∧
    autologging_is_disabled [("sklearn", [])] "sklearn" = PyVal.bool true ∧
    autologging_is_disabled [("sklearn", [("disable", PyVal.bool false)])] "sklearn" =
      PyVal.bool false :=
  ⟨(autologging_is_disabled_spec [] "sklearn").1 (by rfl),
   (autologging_is_disabled_spec [("sklearn", [])] "sklearn").2.1 [] (by rfl) (by rfl),
   (autologging_is_disabled_spec [("sklearn", [("disable", PyVal.bool false)])]
      "sklearn").2.2 [("disable", PyVal.bool false)] (PyVal.bool false) (by rfl) (by rfl)⟩

/-- C10: decorating an autolog function raises exactly when its parameter
list lacks a `disable` parameter whose default is the value `False`; when
the parameter is present with that default, decoration succeeds and the
integration is registered with an initially empty config (the decorated
autolog function itself is never invoked by the decorator). -/
theorem autologging_integration_registration (name : String) (param_spec : List PyParam)
    (store : AutologgingStore) :
    (autologging_integration_wrapper name param_spec store = Except.error () ↔
      ¬ ∃ p, param_spec.find? (fun q => q.name = "disable") = some p ∧
          p.default = PyDefault.val (PyVal.bool false)) ∧
    (∀ store', autologging_integration_wrapper name param_spec store = Except.ok store' →
      store'.lookup name = some []) := by
  constructor
  · rw [autologging_integration_wrapper, validate_param_spec]
    cases hf : param_spec.find? (fun q => q.name = "disable") with
    | none => simp [hf]
    | some p =>
        by_cases hd : p.default = PyDefault.val (PyVal.bool false)
        · simp [hd]
        · simp [hd]
  · intro store' h
    rw [autologging_integration_wrapper] at h
    split at h
    · cases h
      simp [List.lookup]
    · cases h

/-- C10 witness: a parameter spec with `disable=False` registers the
integration with an empty config, and one without raises. -/
theorem autologging_integration_registration_witness :
    autologging_integration_wrapper "sklearn"
        [PyParam.mk "disable" (PyDefault.val (PyVal.bool false))] [] =
      Except.ok [("sklearn", [])] ∧
    (([("sklearn", [])] : AutologgingStore).lookup "sklearn" = some []) ∧
    autologging_integration_wrapper "keras" [PyParam.mk "disable" PyDefault.empty] [] =
      Except.error () :=
  ⟨by rfl,
   (autologging_integration_registration "sklearn"
      [PyParam.mk "disable" (PyDefault.val (PyVal.bool false))] []).2
     [("sklearn", [])] (by rfl),
   (autologging_integration_registration "keras"
      [PyParam.mk "disable" PyDefault.empty] []).1.mpr
     (by
       intro hcontra
       obtain ⟨p, hp1, hp2⟩ := hcontra
       simp [List.find?] at hp1
       rw [← hp1] at hp2
       cases hp2)⟩

/-- Lemma: appended event lists have concatenated original-call traces. -/
theorem origTrace_append {A V E : Type} (xs ys : List (PatchEvent A V E)) :
    origTrace (xs ++ ys) = origTrace xs ++ origTrace ys := by
  simp [origTrace]

/-- Lemma: a successful `call_original` invocation records exactly one
original call, with the returned value. -/
theorem call_original_ok_spec {A V E : Type} (tm : Bool) (vl : A → A → Option E)
    (original : A → Except E V) (callerArgs : A) (st : CallState V) (og : A) (v : V) :
    (call_original tm vl original callerArgs st og).2.2 = Except.ok v →
    origTrace (call_original tm vl original callerArgs st og).2.1 =
      [(og, Except.ok v)] := by
  cases tm <;>
    simp only [call_original, Bool.false_eq_true, if_false, if_true] <;>
    [skip; cases hvl : vl callerArgs og] <;>
    cases ho : original og <;>
    simp [origTrace, ho]

/-- Lemma: a failing `call_original` invocation sets
`failed_during_original`, and its trace is either empty (a test-mode
validation failure, which raises before the original is invoked) or exactly
the one failing original call. -/
theorem call_original_error_spec {A V E : Type} (tm : Bool) (vl : A → A → Option E)
    (original : A → Except E V) (callerArgs : A) (st : CallState V) (og : A) (e : E) :
    (call_original tm vl original callerArgs st og).2.2 = Except.error e →
    (call_original tm vl original callerArgs st og).1.failed_during_original = true ∧
    (origTrace (call_original tm vl original callerArgs st og).2.1 = [] ∨
     origTrace (call_original tm vl original callerArgs st og).2.1 =
       [(og, Except.error e)]) := by
  cases tm <;>
    simp only [call_original, Bool.false_eq_true, if_false, if_true] <;>
    [skip; cases hvl : vl callerArgs og] <;>
    cases ho : original og <;>
    simp [origTrace, ho]

/-- Lemma: under a patch implementation that installs no handler around
`call_original`, an original-function failure recorded in the run's trace is
the run's outcome — execution stopped there, with `failed_during_original`
set, no matter what the patch did before. -/
theorem runPatch_error_mem {A V E : Type} (tm : Bool) (vl : A → A → Option E)
    (original : A → Except E V) (callerArgs : A) (a : A) (e : E) :
    ∀ (P : PatchProg A V E) (st : CallState V), NoCatch P →
      (a, Except.error e) ∈ origTrace (runPatch tm vl original callerArgs P st).2.1 →
      (runPatch tm vl original callerArgs P st).2.2 = Except.error e ∧
      (runPatch tm vl original callerArgs P st).1.failed_during_original = true := by
  intro P
  induction P with
  | ret =>
      intro st hnc hmem
      simp [runPatch, origTrace] at hmem
  | raiseOwn e' =>
      intro st hnc hmem
      simp [runPatch, origTrace] at hmem
  | callOrig a' k ih =>
      intro st hnc hmem
      have hnck : ∀ v, NoCatch (k v) := by simpa [NoCatch] using hnc
      rcases hco : call_original tm vl original callerArgs st a' with ⟨st1, evs, r⟩
      cases r with
      | ok v =>
          have htr : origTrace evs = [(a', Except.ok v)] := by
            have hh := call_original_ok_spec tm vl original callerArgs st a' v
            rw [hco] at hh
            exact hh rfl
          rcases hrec : runPatch tm vl original callerArgs (k v) st1 with ⟨st2, evs2, r2⟩
          have hrun : runPatch tm vl original callerArgs (PatchProg.callOrig a' k) st =
              (st2, evs ++ evs2, r2) := by
            simp [runPatch, hco, hrec]
          rw [hrun] at hmem ⊢
          simp only [origTrace_append, List.mem_append, htr] at hmem
          rcases hmem with hmem | hmem
          · simp at hmem
          · have := ih v st1 (hnck v) (by rw [hrec]; exact hmem)
            rw [hrec] at this
            exact this
      | error e' =>
          have hspec := call_original_error_spec tm vl original callerArgs st a' e'
          rw [hco] at hspec
          obtain ⟨hfail, htr⟩ := hspec rfl
          have hrun : runPatch tm vl original callerArgs (PatchProg.callOrig a' k) st =
              (st1, evs, Except.error e') := by
            simp [runPatch, hco]
          rw [hrun] at hmem ⊢
          rcases htr with htr | htr <;> rw [htr] at hmem
          · simp at hmem
          · simp only [List.mem_singleton, Prod.mk.injEq, Except.error.injEq] at hmem
            obtain ⟨h1, h2⟩ := hmem
            subst h2
            exact ⟨rfl, hfail⟩
  | callOrigCatch a' k h ih ih2 =>
      intro st hnc hmem
      simp [NoCatch] at hnc

/-- C1 (amended): for every patch implementation that does not catch
exceptions from `call_original`, if the original function raises during a
`call_original` invocation then the patched function raises that same
exception, regardless of what the patch did around the call; and when the
exception escaping the patch implementation did not come from the original
(`failed_during_original` is false — the patch's own code raised), it is
handled under the instrumentation-failure rules: re-raised in test mode,
otherwise swallowed with the caller still receiving the original-call
semantics. -/
theorem safe_patch_propagates_original_exception {A V E : Type} :
    (∀ (tm : Bool) (vl : A → A → Option E) (original : A → Except E V) (args : A)
        (P : PatchProg A V E) (a : A) (e : E),
      NoCatch P →
      (a, Except.error e) ∈
        origTrace (runPatch tm vl original args P ⟨false, Option.none, false⟩).2.1 →
      (safe_patch_function false tm vl original P args).1 = Except.error e) ∧
    (∀ (tm : Bool) (vl : A → A → Option E) (original : A → Except E V) (args : A)
        (P : PatchProg A V E) (e : E),
      (runPatch tm vl original args P ⟨false, Option.none, false⟩).2.2 = Except.error e →
      (runPatch tm vl original args P ⟨false, Option.none, false⟩).1.failed_during_original
          = false →
      (tm = true → (safe_patch_function false tm vl original P args).1 = Except.error e) ∧
      (tm = false →
        (safe_patch_function false tm vl original P args).1 =
          (if (runPatch tm vl original args P
                ⟨false, Option.none, false⟩).1.original_has_been_called
           then Except.ok (runPatch tm vl original args P
                ⟨false, Option.none, false⟩).1.original_result
           else (original args).map some))) := by
  constructor
  · intro tm vl original args P a e hnc hmem
    obtain ⟨hres, hfail⟩ :=
      runPatch_error_mem tm vl original args a e P ⟨false, Option.none, false⟩ hnc hmem
    rcases hrun : runPatch tm vl original args P ⟨false, Option.none, false⟩ with ⟨st, evs, r⟩
    rw [hrun] at hres hfail
    simp only at hres hfail
    subst hres
    simp [safe_patch_function, hrun, hfail]
  · intro tm vl original args P e hres hfail
    rcases hrun : runPatch tm vl original args P ⟨false, Option.none, false⟩ with ⟨st, evs, r⟩
    rw [hrun] at hres hfail
    simp only at hres hfail
    subst hres
    constructor
    · intro htm
      subst htm
      simp [safe_patch_function, hrun, hfail]
    · intro htm
      subst htm
      simp only [safe_patch_function, hrun, hfail, Bool.false_eq_true, if_false,
        Bool.or_false]
      split <;> simp_all
  
/-- C1 (counterexample): a patch implementation that catches the exception
raised by `call_original` and returns normally makes the patched function
return `None` (the never-assigned `original_result`) even though the
original raised during its invocation — so the claim that the patched
function raises the original's exception regardless of what the patch does
around the call is false. -/
theorem catching_patch_swallows_original_exception :
    (safe_patch_function false false (fun _ _ => (Option.none : Option Nat))
        (fun _ => (Except.error 7 : Except Nat Nat))
        (PatchProg.callOrigCatch 0 (fun _ => PatchProg.ret) (fun _ => PatchProg.ret)) 5).1 =
      Except.ok Option.none ∧
    origTrace (runPatch false (fun _ _ => (Option.none : Option Nat))
        (fun _ => (Except.error 7 : Except Nat Nat))
        5 (PatchProg.callOrigCatch 0 (fun _ => PatchProg.ret) (fun _ => PatchProg.ret))
        ⟨false, Option.none, false⟩).2.1 = [(0, Except.error 7)] ∧
    (safe_patch_function false false (fun _ _ => (Option.none : Option Nat))
        (fun _ => (Except.error 7 : Except Nat Nat))
        (PatchProg.callOrigCatch 0 (fun _ => PatchProg.ret) (fun _ => PatchProg.ret)) 5).1 ≠
      Except.error 7 := by
  refine ⟨rfl, rfl, ?_⟩
  intro hcontra
  simp [safe_patch_function, runPatch, call_original, origTrace] at hcontra

/-- C1 witness: the amended theorem applied to a concrete non-catching patch
implementation whose single `call_original` invocation fails with
exception 7 — the patched function raises exactly 7. -/
theorem safe_patch_propagates_original_exception_witness :
    NoCatch (PatchProg.callOrig 0 (fun _ => PatchProg.ret) : PatchProg Nat Nat Nat) ∧
    ((0 : Nat), (Except.error 7 : Except Nat Nat)) ∈
      origTrace (runPatch false (fun _ _ => (Option.none : Option Nat))
        (fun _ => (Except.error 7 : Except Nat Nat)) 5
        (PatchProg.callOrig 0 (fun _ => PatchProg.ret))
        ⟨false, Option.none, false⟩).2.1 ∧
    (safe_patch_function false false (fun _ _ => (Option.none : Option Nat))
        (fun _ => (Except.error 7 : Except Nat Nat))
        (PatchProg.callOrig 0 (fun _ => PatchProg.ret)) 5).1 = Except.error 7 :=
  ⟨by intro v; simp [NoCatch],
   by simp [runPatch, call_original, origTrace],
   safe_patch_propagates_original_exception.1 false (fun _ _ => Option.none)
     (fun _ => Except.error 7) 5 (PatchProg.callOrig 0 (fun _ => PatchProg.ret)) 0 7
     (by intro v; simp [NoCatch])
     (by simp [runPatch, call_original, origTrace])⟩

/-- C2: a patch implementation that never invokes `call_original` — whether
it finishes normally or raises an exception that is swallowed outside test
mode — leaves the patched function invoking the original exactly once with
the caller's arguments and returning its result; and whenever the original
has been invoked and the patched call completes without re-raising, the
patched function returns the recorded `original_result`. -/
theorem safe_patch_invokes_original_once {A V E : Type} :
    (∀ (tm : Bool) (vl : A → A → Option E) (original : A → Except E V) (args : A)
        (P : PatchProg A V E),
      NeverCallsOriginal P → (tm = false ∨ P = PatchProg.ret) →
      safe_patch_function false tm vl original P args =
        ((original args).map some,
         [PatchEvent.patchStarted, PatchEvent.origCalled args (original args)])) ∧
    (∀ (tm : Bool) (vl : A → A → Option E) (original : A → Except E V) (args : A)
        (P : PatchProg A V E),
      (runPatch tm vl original args P ⟨false, Option.none, false⟩).1.original_has_been_called
          = true →
      ((runPatch tm vl original args P ⟨false, Option.none, false⟩).2.2 = Except.ok () ∨
        (tm = false ∧
         (runPatch tm vl original args P
            ⟨false, Option.none, false⟩).1.failed_during_original = false)) →
      (safe_patch_function false tm vl original P args).1 =
        Except.ok (runPatch tm vl original args P
          ⟨false, Option.none, false⟩).1.original_result) := by
  constructor
  · intro tm vl original args P hnever hsw
    cases P with
    | ret => simp [safe_patch_function, runPatch]
    | raiseOwn e =>
        have htm : tm = false := by
          rcases hsw with htm | habs
          · exact htm
          · cases habs
        subst htm
        simp [safe_patch_function, runPatch]
    | callOrig a k => simp [NeverCallsOriginal] at hnever
    | callOrigCatch a k h => simp [NeverCallsOriginal] at hnever
  · intro tm vl original args P hcalled hout
    rcases hrun : runPatch tm vl original args P ⟨false, Option.none, false⟩ with ⟨st, evs, r⟩
    rw [hrun] at hcalled hout
    simp only at hcalled hout ⊢
    cases r with
    | ok u => simp [safe_patch_function, hrun, hcalled]
    | error e =>
        rcases hout with habs | ⟨htm, hfail⟩
        · cases habs
        · subst htm
          simp [safe_patch_function, hrun, hcalled, hfail]

/-- C2 witness: the theorem applied to a patch implementation that raises
its own exception (swallowed outside test mode) without ever calling the
original — the original still runs exactly once with the caller's argument
4 and its result is returned — and, for the second part, to a patch that
called the original once. -/
theorem safe_patch_invokes_original_once_witness :
    NeverCallsOriginal (PatchProg.raiseOwn 3 : PatchProg Nat Nat Nat) ∧
    safe_patch_function false false (fun _ _ => (Option.none : Option Nat))
        (fun n => (Except.ok (n + 1) : Except Nat Nat)) (PatchProg.raiseOwn 3) 4 =
      (Except.ok (some 5),
       [PatchEvent.patchStarted, PatchEvent.origCalled 4 (Except.ok 5)]) ∧
    (safe_patch_function false false (fun _ _ => (Option.none : Option Nat))
        (fun n => (Except.ok (n + 1) : Except Nat Nat))
        (PatchProg.callOrig 9 (fun _ => PatchProg.ret)) 4).1 = Except.ok (some 10) :=
  ⟨by simp [NeverCallsOriginal],
   safe_patch_invokes_original_once.1 false (fun _ _ => Option.none)
     (fun n => Except.ok (n + 1)) 4 (PatchProg.raiseOwn 3)
     (by simp [NeverCallsOriginal]) (Or.inl rfl),
   safe_patch_invokes_original_once.2 false (fun _ _ => Option.none)
     (fun n => Except.ok (n + 1)) 4 (PatchProg.callOrig 9 (fun _ => PatchProg.ret))
     (by simp [runPatch, call_original]) (Or.inl (by simp [runPatch, call_original]))⟩
